import Mathlib

/-!
Shallow embedding of the zudoku-backend session relay (src/main.go).

The program keeps a process-wide map `sessions : map[string][]*websocket.Conn`.
We model a `*websocket.Conn` as an opaque identity (a `Nat`), a message as a
byte list, and the map as `String → Option (List Conn)` — `none` means the key
is absent (Go's `exists` is false), `some l` means the key is present and holds
slice `l`.  A Go map read of an absent key yields the nil slice, i.e.
`(r id).getD []`.

Network effects (`WriteMessage`, `Close`) are modelled as event lists returned
alongside the new registry state; whether a given connection's `WriteMessage`
fails is an environment parameter `sendOk : Conn → Bool`.
-/

namespace Zudoku

/-- A `*websocket.Conn`: an opaque handle with identity semantics. -/
abbrev Conn := Nat

/-- An opaque message payload (`[]byte`). -/
abbrev Msg := List Nat

/-- The `sessions` map: `map[string][]*websocket.Conn`.
`none` models an absent key; `some l` a present key holding slice `l`. -/
abbrev Registry := String → Option (List Conn)

/-- One `conn.WriteMessage(websocket.TextMessage, message)` attempt during a
broadcast: the target connection, the payload handed to the transport, and
whether the transport reported success. -/
structure SendEvent where
  conn : Conn
  payload : Msg
  ok : Bool
  deriving DecidableEq, Repr

/-- `sessions[id] = append(sessions[id], conn)` — the registration step shared
by `handleHost` (src/main.go:37-39) and `handleJoin` (src/main.go:59-61).
Reading an absent key gives the nil slice, and the assignment makes the key
present. -/
def joinSession (r : Registry) (id : String) (c : Conn) : Registry :=
  fun k => if k = id then some ((r id).getD [] ++ [c]) else r k

/-- `broadcastMessage` (src/main.go:87-96): under the mutex, iterate over
`sessions[sessionID]` and attempt `WriteMessage` on each connection; a write
error is only logged.  The map is never written, so the registry component of
the result is the input registry.  `sendOk` tells which connections' writes
succeed. -/
def broadcastMessage (sendOk : Conn → Bool) (r : Registry) (sessionID : String)
    (message : Msg) : Registry × List SendEvent :=
  (r, ((r sessionID).getD []).map fun c => ⟨c, message, sendOk c⟩)

/-- The loop body of `removeConnection` (src/main.go:103-109): scan the slice
for the first element identical to `conn`; if found at index `i`, the slice
with index `i` dropped is written back (`some result`), otherwise nothing is
written (`none`). -/
def removeLoop (conns : List Conn) (c : Conn) : Option (List Conn) :=
  match conns with
  | [] => none
  | x :: xs => if x = c then some xs else (removeLoop xs c).map (x :: ·)

/-- `removeConnection` (src/main.go:99-110): remove the first occurrence of
`conn` from `sessions[sessionID]` if present; the map entry is written only
when a match is found, and the key is never deleted. -/
def removeConnection (r : Registry) (sessionID : String) (c : Conn) : Registry :=
  match removeLoop ((r sessionID).getD []) c with
  | none => r
  | some l => fun k => if k = sessionID then some l else r k

/-- `websocket.CloseNormalClosure` (RFC 6455 status code for a normal
closure), used by `handleClose`. -/
def closeNormalClosure : Nat := 1000

/-- A network effect performed by `handleClose` on one member connection. -/
inductive CloseEvent where
  /-- `conn.WriteMessage(websocket.CloseMessage,
  websocket.FormatCloseMessage(code, reason))`. -/
  | sendClose (c : Conn) (code : Nat) (reason : String)
  /-- `conn.Close()`. -/
  | closeConn (c : Conn)
  deriving DecidableEq, Repr

/-- The loop of `handleClose` (src/main.go:124-127): for each member, send the
close-control frame then close the transport. -/
def closeEvents : List Conn → List CloseEvent
  | [] => []
  | c :: cs =>
      .sendClose c closeNormalClosure "Game closed" :: .closeConn c :: closeEvents cs

/-- The registry-touching core of `handleClose` (src/main.go:119-135): if
`sessions[id]` exists, notify and close every member connection, delete the
entry, and answer found (`true`); otherwise answer not-found (`false`) with no
action. -/
def handleClose (r : Registry) (id : String) : Registry × Bool × List CloseEvent :=
  match r id with
  | some conns => (fun k => if k = id then none else r k, true, closeEvents conns)
  | none => (r, false, [])

/-- One iteration of the `handleMessages` receive loop (src/main.go:74-83) on
a successful read: the received bytes are handed unchanged to
`broadcastMessage`. -/
def handleMessagesStep (sendOk : Conn → Bool) (r : Registry) (sessionID : String)
    (msg : Msg) : Registry × List SendEvent :=
  broadcastMessage sendOk r sessionID msg

/-- A sequence of Join calls into one session, in order. -/
def joinAll (r : Registry) (id : String) (cs : List Conn) : Registry :=
  cs.foldl (fun st c => joinSession st id c) r

/-- The empty registry (process start). -/
def emptyReg : Registry := fun _ => none

/-- A concrete registry with one session `"s"` holding three connections. -/
def regW : Registry := fun k => if k = "s" then some [1, 2, 3] else none

/-- A concrete registry with one session `"t"` holding a single connection. -/
def regW1 : Registry := fun k => if k = "t" then some [7] else none

/-- A concrete registry in which connection `5` occurs twice in session
`"s"` (reachable by joining the same connection twice: the API does not
prevent multi-join). -/
def dupReg : Registry := fun k => if k = "s" then some [5, 5] else none

/-! ### Lemmas about the removal loop -/

theorem removeLoop_eq_none {l : List Conn} {c : Conn} :
    removeLoop l c = none ↔ c ∉ l := by
  induction l with
  | nil => simp [removeLoop]
  | cons x xs ih =>
    by_cases hx : x = c
    · subst hx; simp [removeLoop]
    · simp [removeLoop, hx, ih, Ne.symm hx]

theorem removeLoop_append {l₁ l₂ : List Conn} {c : Conn} (h : c ∉ l₁) :
    removeLoop (l₁ ++ c :: l₂) c = some (l₁ ++ l₂) := by
  induction l₁ with
  | nil => simp [removeLoop]
  | cons x xs ih =>
    have hx : x ≠ c := by intro he; exact h (he ▸ List.mem_cons_self x xs)
    have hxs : c ∉ xs := fun hm => h (List.mem_cons_of_mem x hm)
    simp [removeLoop, hx, ih hxs]

theorem removeLoop_count {l l' : List Conn} {c : Conn}
    (h : removeLoop l c = some l') : l'.count c + 1 = l.count c := by
  induction l generalizing l' with
  | nil => simp [removeLoop] at h
  | cons x xs ih =>
    by_cases hx : x = c
    · subst hx
      simp [removeLoop] at h
      subst h
      simp [List.count_cons_self]
    · simp [removeLoop, hx] at h
      obtain ⟨l'', hl'', rfl⟩ := h
      have := ih hl''
      simp [List.count_cons, hx, this]

/-! ### Lemmas about joining and closing -/

theorem joinAll_getD (S : String) (cs : List Conn) (r : Registry) :
    ((joinAll r S cs) S).getD [] = (r S).getD [] ++ cs := by
  induction cs generalizing r with
  | nil => simp [joinAll]
  | cons c cs ih =>
    have h1 : joinAll r S (c :: cs) = joinAll (joinSession r S c) S cs := rfl
    rw [h1, ih]
    simp [joinSession]

theorem closeEvents_mem {l : List Conn} {c : Conn} (h : c ∈ l) :
    CloseEvent.sendClose c closeNormalClosure "Game closed" ∈ closeEvents l ∧
      CloseEvent.closeConn c ∈ closeEvents l := by
  induction l with
  | nil => cases h
  | cons x xs ih =>
    rcases List.mem_cons.mp h with rfl | hm
    · simp [closeEvents]
    · have := ih hm
      simp [closeEvents, this.1, this.2]

/-! ### Claim theorems -/

/-- Claim C1: starting from a registry with no entry for `S`, a sequence of
Join calls with pairwise-distinct connections leaves under `S` a collection
whose size is the number of Join calls, and a subsequent Broadcast attempts a
send of the message to exactly those connections, each exactly once. -/
theorem join_broadcast_exact (r : Registry) (S : String) (cs : List Conn)
    (msg : Msg) (sendOk : Conn → Bool)
    (habs : r S = none) (hnd : cs.Nodup) :
    ((joinAll r S cs) S).getD [] = cs ∧
    (((joinAll r S cs) S).getD []).length = cs.length ∧
    (broadcastMessage sendOk (joinAll r S cs) S msg).2.map SendEvent.conn = cs ∧
    ((broadcastMessage sendOk (joinAll r S cs) S msg).2.map SendEvent.conn).Nodup := by
  have h := joinAll_getD S cs r
  rw [habs] at h
  simp only [Option.getD_none, List.nil_append] at h
  have hmap : (broadcastMessage sendOk (joinAll r S cs) S msg).2.map SendEvent.conn = cs := by
    simp [broadcastMessage, h, Function.comp_def]
  exact ⟨h, by rw [h], hmap, by rw [hmap]; exact hnd⟩

/-- Witness for C1 at the empty registry, joins `[1, 2, 3]`, message `[9]`. -/
theorem join_broadcast_exact_witness :
    emptyReg "s" = none ∧ ([1, 2, 3] : List Conn).Nodup ∧
    ((joinAll emptyReg "s" [1, 2, 3]) "s").getD [] = [1, 2, 3] ∧
    (broadcastMessage (fun _ => true) (joinAll emptyReg "s" [1, 2, 3]) "s"
      [9]).2.map SendEvent.conn = [1, 2, 3] :=
  ⟨rfl, by decide,
    (join_broadcast_exact emptyReg "s" [1, 2, 3] [9] (fun _ => true) rfl (by decide)).1,
    (join_broadcast_exact emptyReg "s" [1, 2, 3] [9] (fun _ => true) rfl (by decide)).2.2.1⟩

/-- Claim C2: within a single Broadcast, a send failure for one connection
does not prevent the attempt to every remaining connection of the session,
and does not remove the failed connection from the session's collection. -/
theorem broadcast_failure_isolated (sendOk : Conn → Bool) (r : Registry)
    (S : String) (msg : Msg) (cBad : Conn)
    (hmem : cBad ∈ (r S).getD []) (hfail : sendOk cBad = false) :
    (broadcastMessage sendOk r S msg).1 = r ∧
    (broadcastMessage sendOk r S msg).2.map SendEvent.conn = (r S).getD [] ∧
    SendEvent.mk cBad msg false ∈ (broadcastMessage sendOk r S msg).2 ∧
    cBad ∈ ((broadcastMessage sendOk r S msg).1 S).getD [] := by
  refine ⟨rfl, ?_, ?_, hmem⟩
  · simp [broadcastMessage, Function.comp_def]
  · exact List.mem_map.mpr ⟨cBad, hmem, by rw [hfail]⟩

/-- Witness for C2: connection `2` of session `"s"` in `regW` always fails;
connections `1` and `3` are still attempted and `2` stays a member. -/
theorem broadcast_failure_isolated_witness :
    (2 : Conn) ∈ (regW "s").getD [] ∧ (fun c : Conn => c != 2) 2 = false ∧
    (broadcastMessage (fun c => c != 2) regW "s" [4]).2.map SendEvent.conn
      = (regW "s").getD [] ∧
    SendEvent.mk 2 [4] false ∈ (broadcastMessage (fun c => c != 2) regW "s" [4]).2 ∧
    (2 : Conn) ∈ ((broadcastMessage (fun c => c != 2) regW "s" [4]).1 "s").getD [] :=
  ⟨by decide, by decide,
    (broadcast_failure_isolated (fun c => c != 2) regW "s" [4] 2 (by decide) (by decide)).2.1,
    (broadcast_failure_isolated (fun c => c != 2) regW "s" [4] 2 (by decide) (by decide)).2.2.1,
    (broadcast_failure_isolated (fun c => c != 2) regW "s" [4] 2 (by decide) (by decide)).2.2.2⟩

/-- Claim C3: when the registry has an entry for the session, CloseSession
sends a "normal closure" close notification with reason "Game closed" to every
member, closes each member's transport, removes the session entry (other keys
untouched), and reports found; when there is no entry, it reports not-found
and leaves the registry unchanged. -/
theorem handleClose_spec (r : Registry) (S : String) :
    (∀ l, r S = some l →
      (handleClose r S).2.1 = true ∧
      (∀ c ∈ l,
        CloseEvent.sendClose c closeNormalClosure "Game closed" ∈ (handleClose r S).2.2 ∧
        CloseEvent.closeConn c ∈ (handleClose r S).2.2) ∧
      (handleClose r S).1 S = none ∧
      (∀ k, k ≠ S → (handleClose r S).1 k = r k)) ∧
    (r S = none → handleClose r S = (r, false, [])) := by
  constructor
  · intro l hl
    refine ⟨by simp [handleClose, hl], ?_, by simp [handleClose, hl], ?_⟩
    · intro c hc
      simpa [handleClose, hl] using closeEvents_mem hc
    · intro k hk
      simp [handleClose, hl, hk]
  · intro hn
    simp [handleClose, hn]

/-- Witness for C3: closing `"s"` in `regW` notifies member `2` and deletes
the entry; closing `"q"` in the empty registry reports not-found. -/
theorem handleClose_spec_witness :
    regW "s" = some [1, 2, 3] ∧
    (handleClose regW "s").2.1 = true ∧
    CloseEvent.sendClose 2 closeNormalClosure "Game closed" ∈ (handleClose regW "s").2.2 ∧
    (handleClose regW "s").1 "s" = none ∧
    emptyReg "q" = none ∧
    handleClose emptyReg "q" = (emptyReg, false, []) :=
  ⟨by decide, ((handleClose_spec regW "s").1 [1, 2, 3] (by decide)).1,
    (((handleClose_spec regW "s").1 [1, 2, 3] (by decide)).2.1 2 (by decide)).1,
    ((handleClose_spec regW "s").1 [1, 2, 3] (by decide)).2.2.1,
    rfl, (handleClose_spec emptyReg "q").2 rfl⟩

/-- Claim C4: after a successful CloseSession on `S`, a subsequent Join into
`S` creates a fresh collection holding only the new connection, with no
members from before the close. -/
theorem close_then_join_fresh (r : Registry) (S : String) (l : List Conn)
    (c : Conn) (hl : r S = some l) :
    (handleClose r S).2.1 = true ∧
    (joinSession (handleClose r S).1 S c) S = some [c] := by
  constructor
  · simp [handleClose, hl]
  · simp [joinSession, handleClose, hl]

/-- Witness for C4: close `"s"` in `regW` then join connection `4`. -/
theorem close_then_join_fresh_witness :
    regW "s" = some [1, 2, 3] ∧
    (handleClose regW "s").2.1 = true ∧
    (joinSession (handleClose regW "s").1 "s" 4) "s" = some [4] :=
  ⟨by decide, (close_then_join_fresh regW "s" [1, 2, 3] 4 (by decide)).1,
    (close_then_join_fresh regW "s" [1, 2, 3] 4 (by decide)).2⟩

/-- Claim C5: Leave removes exactly the first occurrence of the connection
(identity comparison) from the session's collection, preserving the relative
order of the rest and touching no other key, and is a no-op when the
connection is absent. -/
theorem removeConnection_spec (r : Registry) (S : String) (c : Conn) :
    (∀ l₁ l₂, (r S).getD [] = l₁ ++ c :: l₂ → c ∉ l₁ →
      (removeConnection r S c) S = some (l₁ ++ l₂) ∧
      ∀ k, k ≠ S → (removeConnection r S c) k = r k) ∧
    (c ∉ (r S).getD [] → removeConnection r S c = r) := by
  constructor
  · intro l₁ l₂ hsplit hnotmem
    have hloop : removeLoop ((r S).getD []) c = some (l₁ ++ l₂) := by
      rw [hsplit]; exact removeLoop_append hnotmem
    refine ⟨by simp [removeConnection, hloop], ?_⟩
    intro k hk
    simp [removeConnection, hloop, hk]
  · intro habs
    have h := removeLoop_eq_none.mpr habs
    simp [removeConnection, h]

/-- Witness for C5: removing `2` from `[1, 2, 3]` in `regW` leaves `[1, 3]`
under `"s"` and does not touch key `"t"`; removing absent `9` is a no-op. -/
theorem removeConnection_spec_witness :
    (regW "s").getD [] = [1] ++ 2 :: [3] ∧ (2 : Conn) ∉ ([1] : List Conn) ∧
    (removeConnection regW "s" 2) "s" = some ([1] ++ [3]) ∧
    (removeConnection regW "s" 2) "t" = regW "t" ∧
    (9 : Conn) ∉ (regW "s").getD [] ∧
    removeConnection regW "s" 9 = regW :=
  ⟨by decide, by decide,
    ((removeConnection_spec regW "s" 2).1 [1] [3] (by decide) (by decide)).1,
    ((removeConnection_spec regW "s" 2).1 [1] [3] (by decide) (by decide)).2 "t" (by decide),
    by decide,
    (removeConnection_spec regW "s" 9).2 (by decide)⟩

/-- Claim C6 counterexample: over a registry in which connection `5` occurs
twice under `"s"`, two successive Leave calls do not agree with one — the
first leaves `[5]`, the second `[]` — so Leave is not idempotent on every
registry state. -/
theorem removeConnection_not_idem :
    removeConnection (removeConnection dupReg "s" 5) "s" 5 ≠ removeConnection dupReg "s" 5 := by
  intro h
  exact absurd (congrFun h "s") (by decide)

/-- Claim C6 (amended): Leave is idempotent on every registry state in which
the connection occurs at most once in the session's collection — which covers
every state the lifecycle driver produces, since it registers each connection
instance once. -/
theorem removeConnection_idem (r : Registry) (S : String) (c : Conn)
    (h : ((r S).getD []).count c ≤ 1) :
    removeConnection (removeConnection r S c) S c = removeConnection r S c := by
  cases hm : removeLoop ((r S).getD []) c with
  | none =>
    have h1 : removeConnection r S c = r := by simp [removeConnection, hm]
    rw [h1]
    exact h1
  | some l =>
    have hcount := removeLoop_count hm
    have hc0 : l.count c = 0 := by omega
    have hnotmem : c ∉ l := List.count_eq_zero.mp hc0
    have h2 : (removeConnection r S c) S = some l := by
      simp [removeConnection, hm]
    have hloop2 : removeLoop (((removeConnection r S c) S).getD []) c = none := by
      rw [h2]
      exact removeLoop_eq_none.mpr hnotmem
    have hstep : removeConnection (removeConnection r S c) S c
        = match removeLoop (((removeConnection r S c) S).getD []) c with
          | none => removeConnection r S c
          | some l' => fun k => if k = S then some l' else (removeConnection r S c) k := rfl
    rw [hstep, hloop2]

/-- Witness for C6 (amended): in `regW`, connection `2` occurs once under
`"s"`, and a second Leave changes nothing. -/
theorem removeConnection_idem_witness :
    ((regW "s").getD []).count 2 ≤ 1 ∧
    removeConnection (removeConnection regW "s" 2) "s" 2 = removeConnection regW "s" 2 :=
  ⟨by decide, removeConnection_idem regW "s" 2 (by decide)⟩

/-- Claim C7: Leave never deletes a session's registry entry: if `S` has an
entry, it still has one afterwards, and in particular removing the last
member leaves the key mapped to the empty collection. -/
theorem removeConnection_keeps_entry (r : Registry) (S : String) (c : Conn)
    (l : List Conn) (hl : r S = some l) :
    (∃ l', (removeConnection r S c) S = some l') ∧
    (l = [c] → (removeConnection r S c) S = some ([] : List Conn)) := by
  constructor
  · cases hm : removeLoop ((r S).getD []) c with
    | none =>
      have hid : removeConnection r S c = r := by simp [removeConnection, hm]
      exact ⟨l, by rw [hid, hl]⟩
    | some l' => exact ⟨l', by simp [removeConnection, hm]⟩
  · rintro rfl
    have hl' : (r S).getD [] = [c] := by rw [hl]; rfl
    have hm : removeLoop ((r S).getD []) c = some [] := by
      rw [hl']
      simp [removeLoop]
    simp [removeConnection, hm]

/-- Witness for C7: removing the only member `7` of `"t"` in `regW1` keeps the
key present, mapped to the empty collection. -/
theorem removeConnection_keeps_entry_witness :
    regW1 "t" = some [7] ∧
    (removeConnection regW1 "t" 7) "t" = some ([] : List Conn) :=
  ⟨by decide, (removeConnection_keeps_entry regW1 "t" 7 [7] (by decide)).2 rfl⟩

/-- Claim C8: broadcasting to a session with no registry entry raises no
error, performs no send attempt, and leaves the registry unchanged. -/
theorem broadcast_absent_noop (sendOk : Conn → Bool) (r : Registry)
    (S : String) (msg : Msg) (habs : r S = none) :
    broadcastMessage sendOk r S msg = (r, []) := by
  simp [broadcastMessage, habs]

/-- Witness for C8 at the empty registry. -/
theorem broadcast_absent_noop_witness :
    emptyReg "s" = none ∧
    broadcastMessage (fun _ => true) emptyReg "s" [1] = (emptyReg, []) :=
  ⟨rfl, broadcast_absent_noop (fun _ => true) emptyReg "s" [1] rfl⟩

/-- Claim C9: each message the receive loop hands to Broadcast is relayed
byte-for-byte: every send attempt of the resulting broadcast carries exactly
the received payload, with one outgoing attempt per current member of the
session. -/
theorem relay_byte_for_byte (sendOk : Conn → Bool) (r : Registry)
    (S : String) (msg : Msg) :
    (handleMessagesStep sendOk r S msg).2.map SendEvent.payload
      = List.replicate ((r S).getD []).length msg ∧
    (handleMessagesStep sendOk r S msg).2.length = ((r S).getD []).length := by
  constructor
  · simp [handleMessagesStep, broadcastMessage, Function.comp_def, List.map_const']
  · simp [handleMessagesStep, broadcastMessage]

/-- Claim C10: Broadcast never mutates the registry — the sessions map, and
with it every session's collection, is returned exactly as given, whatever
the send outcomes. -/
theorem broadcast_never_mutates (sendOk : Conn → Bool) (r : Registry)
    (S : String) (msg : Msg) :
    (broadcastMessage sendOk r S msg).1 = r := rfl

end Zudoku
